import Mathlib

/-!
Shallow embedding of the pycsv CSV encoder/decoder (`src/pycsv/__init__.py`,
with the near-duplicate `src/csv_utils/__init__.py` noted where it differs).

Modelling conventions:
* A Python `str` is a `List Char`; a grid cell is `Option (List Char)`
  (`none` is Python `None`, `some s` is the text scalar `s`).  The claims in
  scope only involve text or absent cells, so other scalar types are omitted.
* The tokenizer regex
  `(?:(?P<cell>({e}.+{e})|(?:[^{c}{e}{r}]*)))(?P<term>[{c}{r}]|$)` is embedded
  by hand with Python `re` semantics: `.` matches any character except the
  literal newline, `.+` is greedy with backtracking, the alternation tries the
  quoted branch first, `$` matches at end of input or just before a trailing
  newline, and `finditer` resumes at the match end (advancing one extra
  position after an empty match).
* Python exceptions become `Except PyErr`; `IndexError`, `TypeError`,
  `ValueError` and the `CSV.from_str` "match of unknown type" `Exception`
  are the constructors of `PyErr`.
* Statements whose Python effect is discarded (the bare `cell.replace(...)`
  and `cell_out.replace(...)` calls, whose results are never reassigned) are
  kept as dead computations or noted in comments; they do not change state.
-/

/-- Configuration triple of `CSV`: cell separator, row separator, escape. -/
structure Cfg where
  cellend : Char
  rowend : Char
  escape : Char
deriving DecidableEq, Repr

/-- Default configuration: comma, newline, double quote. -/
def defaultCfg : Cfg := ⟨',', '\n', '\"'⟩

/-- A grid cell: Python `None` or a text scalar. -/
abbrev Cell := Option (List Char)

/-- Python exceptions surfaced by the embedded code. -/
inductive PyErr where
  | malformed
  | typeError
  | valueError
  | indexError
deriving DecidableEq, Repr

/-- One tokenizer match: the `cell` group and the `term` group
(`some ch` for a one-character terminator, `none` for the empty `$` match). -/
structure Tok where
  cell : List Char
  term : Option Char
deriving DecidableEq, Repr

/-- The `term` group `[{c}{r}]|$` attempted at a suffix of the input:
a cell or row separator consumes one character; `$` matches the empty string
at end of input or just before a trailing newline; otherwise no match. -/
def termAt (cfg : Cfg) : List Char → Option (Option Char × List Char)
  | [] => some (none, [])
  | ch :: rest =>
    if ch = cfg.cellend ∨ ch = cfg.rowend then some (some ch, rest)
    else if ch = '\n' ∧ rest = [] then some (none, ch :: rest)
    else none

/-- Backtracking search for the closing escape of the quoted branch
`{e}.+{e}`: `t` is the input after the opening escape, and closing positions
`k, k-1, ..., 1` are tried in order (greedy `.+`).  Returns the chosen
closing index, the terminator and the remaining input. -/
def tryCloseIdx (cfg : Cfg) (t : List Char) : Nat → Option (Nat × Option Char × List Char)
  | 0 => none
  | km + 1 =>
    match t.get? (km + 1) with
    | some ch =>
      if ch = cfg.escape then
        match termAt cfg (t.drop (km + 2)) with
        | some (tm, rest) => some (km + 1, tm, rest)
        | none => tryCloseIdx cfg t km
      else tryCloseIdx cfg t km
    | none => tryCloseIdx cfg t km

/-- Quoted branch `{e}.+{e}` of the `cell` group followed by the terminator.
`.+` cannot cross a literal newline and is matched greedily. -/
def branchQuoted (cfg : Cfg) : List Char → Option (Tok × List Char)
  | [] => none
  | ch :: t =>
    if ch = cfg.escape then
      match tryCloseIdx cfg t (t.takeWhile (fun c => ¬ c = '\n')).length with
      | some (k, tm, rest) => some (⟨cfg.escape :: (t.take k ++ [cfg.escape]), tm⟩, rest)
      | none => none
    else none

/-- Backtracking for the unquoted branch: run lengths `m, m-1, ..., 0` are
tried in order (greedy `[^{c}{e}{r}]*`), each followed by the terminator. -/
def tryRun (cfg : Cfg) (s : List Char) : Nat → Option (Nat × Option Char × List Char)
  | 0 =>
    match termAt cfg s with
    | some (tm, rest) => some (0, tm, rest)
    | none => none
  | m + 1 =>
    match termAt cfg (s.drop (m + 1)) with
    | some (tm, rest) => some (m + 1, tm, rest)
    | none => tryRun cfg s m

/-- Unquoted branch `[^{c}{e}{r}]*` of the `cell` group followed by the
terminator. -/
def branchPlain (cfg : Cfg) (s : List Char) : Option (Tok × List Char) :=
  match tryRun cfg s
      (s.takeWhile (fun c => ¬ (c = cfg.cellend ∨ c = cfg.escape ∨ c = cfg.rowend))).length with
  | some (m, tm, rest) => some (⟨s.take m, tm⟩, rest)
  | none => none

/-- One attempt of the full pattern at a given suffix: the quoted branch is
tried before the unquoted branch. -/
def matchAt (cfg : Cfg) (s : List Char) : Option (Tok × List Char) :=
  match branchQuoted cfg s with
  | some r => some r
  | none => branchPlain cfg s

/-- The `finditer` scan: on a failed attempt or after an empty match the scan
advances one position; after a non-empty match it resumes at the match end.
The fuel argument bounds the number of attempts (each attempt strictly
shrinks the suffix, so `length + 1` attempts always suffice). -/
def scanAux (cfg : Cfg) : Nat → List Char → List Tok
  | 0, _ => []
  | fuel + 1, s =>
    match matchAt cfg s with
    | none =>
      match s with
      | [] => []
      | _ :: t => scanAux cfg fuel t
    | some (tok, rest) =>
      if rest.length < s.length then tok :: scanAux cfg fuel rest
      else
        match s with
        | [] => [tok]
        | _ :: t => tok :: scanAux cfg fuel t

/-- All tokenizer matches of the input, in order (`__csv_from_str_regex`). -/
def tokenize (cfg : Cfg) (s : List Char) : List Tok :=
  scanAux cfg (s.length + 1) s

/-- Row-building loop of `CSV.from_str`: a cell-separator terminator extends
the current row, a row-separator terminator closes it, and any other
terminator (the empty `$` match) appends the final cell and breaks, leaving
later tokens unprocessed.  The guard reproduces the source's comparison of
`m.groupdict()['cell']` with `m.group('cell')` — two reads of the same
group — whose failure raises the "match of unknown type" `Exception`. -/
def buildRowsGo (cfg : Cfg) (cur : List (List Char)) (rows : List (List (List Char))) :
    List Tok → Except PyErr (List (List (List Char)))
  | [] => .ok rows
  | t :: ts =>
    if t.cell = t.cell then
      if t.term = some cfg.cellend then buildRowsGo cfg (cur ++ [t.cell]) rows ts
      else if t.term = some cfg.rowend then buildRowsGo cfg [] (rows ++ [cur ++ [t.cell]]) ts
      else .ok (rows ++ [cur ++ [t.cell]])
    else .error .malformed

/-- Existence of an internal escaped run `{e}[{e}{c}{r}]{e}` in a cell
(the truthiness test `__cell_escaped_regex(cell)` in the unescape pass). -/
def hasEscapedRun (cfg : Cfg) : List Char → Bool
  | a :: b :: c :: rest =>
    (decide (a = cfg.escape) && (decide (b = cfg.escape) || decide (b = cfg.cellend)
        || decide (b = cfg.rowend)) && decide (c = cfg.escape))
    || hasEscapedRun cfg (b :: c :: rest)
  | _ => false

/-- Per-cell unescaping pass of `CSV.from_str`.  A cell wrapped in escape
characters loses the outer pair (`cell = cell[1:-1]`); in both non-empty
branches the subsequent `cell.replace(matched_str, matched_str[1])` calls
discard their results in the source, so nothing else changes. -/
def unescapeCell (cfg : Cfg) (cell : List Char) : List Char :=
  if cell.length < 1 then cell
  else if cell.head? = some cfg.escape ∧ cell.getLast? = some cfg.escape then
    (cell.drop 1).dropLast
  else if hasEscapedRun cfg cell then cell
  else cell

/-- Python string comparison `<` (lexicographic on characters, a strict
prefix is smaller). -/
def strLt : List Char → List Char → Bool
  | [], [] => false
  | [], _ :: _ => true
  | _ :: _, [] => false
  | a :: as, b :: bs => if a = b then strLt as bs else decide (a < b)

/-- Python comparison of two cells with `<`: defined on two strings, a
`TypeError` (`none`) whenever `None` is involved. -/
def cellCmpLt : Cell → Cell → Option Bool
  | some a, some b => some (strLt a b)
  | _, _ => none

/-- Python comparison of two cells with `>`. -/
def cellCmpGt : Cell → Cell → Option Bool
  | some a, some b => some (strLt b a)
  | _, _ => none

/-- Python list comparison: scan for the first pair of elements that are not
`==`-equal and compare them; if one list is exhausted first, compare the
lengths with `lenCmp`.  `none` is a `TypeError` from the element comparison. -/
def rowCmpWith (cmp : Cell → Cell → Option Bool) (lenCmp : Nat → Nat → Bool) :
    List Cell → List Cell → Option Bool
  | [], [] => some (lenCmp 0 0)
  | [], _ :: _ => some (lenCmp 0 1)
  | _ :: _, [] => some (lenCmp 1 0)
  | a :: as, b :: bs => if a = b then rowCmpWith cmp lenCmp as bs else cmp a b

/-- Python `row < row` on rows of cells. -/
def rowLt (a b : List Cell) : Option Bool :=
  rowCmpWith cellCmpLt (fun x y => decide (x < y)) a b

/-- Python `row > row` on rows of cells. -/
def rowGt (a b : List Cell) : Option Bool :=
  rowCmpWith cellCmpGt (fun x y => decide (y < x)) a b

/-- A Python `for` loop threading state through a fallible body: the first
exception aborts the loop. -/
def pyFoldM {σ α : Type} (f : σ → α → Except PyErr σ) : σ → List α → Except PyErr σ
  | s, [] => .ok s
  | s, x :: xs =>
    match f s x with
    | .ok s' => pyFoldM f s' xs
    | .error e => .error e

/-- A Python list comprehension with a fallible body (left to right,
first exception aborts). -/
def pyListMapM {α β : Type} (f : α → Except PyErr β) : List α → Except PyErr (List β)
  | [] => .ok []
  | x :: xs =>
    match f x with
    | .error e => .error e
    | .ok y =>
      match pyListMapM f xs with
      | .error e => .error e
      | .ok ys => .ok (y :: ys)

/-- Python `max` over rows: keeps the first maximum, raises `ValueError` on
an empty sequence and `TypeError` on an unorderable comparison. -/
def pyMax : List (List Cell) → Except PyErr (List Cell)
  | [] => .error .valueError
  | r :: rs =>
    pyFoldM (fun cur x =>
      match rowGt x cur with
      | some true => .ok x
      | some false => .ok cur
      | none => .error .typeError) r rs

/-- Python `min` over rows (see `pyMax`). -/
def pyMin : List (List Cell) → Except PyErr (List Cell)
  | [] => .error .valueError
  | r :: rs =>
    pyFoldM (fun cur x =>
      match rowLt x cur with
      | some true => .ok x
      | some false => .ok cur
      | none => .error .typeError) r rs

/-- Python `max` over a list of lengths. -/
def pyMaxNat : List Nat → Except PyErr Nat
  | [] => .error .valueError
  | n :: ns => .ok (ns.foldl (fun cur x => if cur < x then x else cur) n)

/-- Python `min` over a list of lengths. -/
def pyMinNat : List Nat → Except PyErr Nat
  | [] => .error .valueError
  | n :: ns => .ok (ns.foldl (fun cur x => if x < cur then x else cur) n)

/-- The `CSV._get_blank_row` helper: a row of `None` matching row 0's width. -/
def get_blank_row (rows : List (List Cell)) : List Cell :=
  match rows with
  | [] => [none]
  | r0 :: _ => r0.map (fun _ => none)

/-- The `CSV._set_row_count` helper: append blank rows up to the requested
count (each blank copies the width of row 0 at append time). -/
def set_row_count (rows : List (List Cell)) (rc : Nat) : List (List Cell) :=
  if rows.length < rc then
    match rows with
    | [] => List.replicate rc ([none] : List Cell)
    | _ :: _ => rows ++ List.replicate (rc - rows.length) (get_blank_row rows)
  else rows

/-- The `CSV._set_column_count` helper: pad every row with `None` up to the
larger of the requested count and the current widest row. -/
def set_column_count (rows : List (List Cell)) (colCount : Nat) : List (List Cell) :=
  let largest := rows.foldl (fun acc row => if acc < row.length then row.length else acc) 0
  let cc := if colCount < largest then largest else colCount
  rows.map (fun row =>
    if row.length < cc then row ++ List.replicate (cc - row.length) (none : Cell) else row)

/-- The `CSV.__getitem__` accessor for a `(row, col)` key: in strict mode an
out-of-bounds index raises `IndexError`; otherwise it returns `None`. -/
def getitem (strict : Bool) (rows : List (List Cell)) (r c : Nat) : Except PyErr Cell :=
  if rows.length < r + 1 then
    if strict then .error .indexError else .ok none
  else if (rows.getD r []).length < c + 1 then
    if strict then .error .indexError else .ok none
  else .ok ((rows.getD r []).getD c none)

/-- Final indexed assignment `self._rows[row][col] = value` of
`CSV.__setitem__`: a plain list assignment, raising `IndexError` when either
index is still out of bounds after any growth. -/
def setitemAssign (rows2 : List (List Cell)) (r c : Nat) (v : Cell) :
    Except PyErr (List (List Cell)) :=
  match rows2.get? r with
  | none => .error .indexError
  | some row =>
    if row.length < c + 1 then .error .indexError
    else .ok (rows2.set r (row.set c v))

/-- Column bound check of `CSV.__setitem__`: the column index is compared
against the width of row 0 (`len(self._rows[0])`, an `IndexError` when the
grid has no rows); out of bounds raises in strict mode and otherwise grows
through `_set_column_count` before the final assignment. -/
def setitemCols (strict : Bool) (rows1 : List (List Cell)) (r c : Nat) (v : Cell) :
    Except PyErr (List (List Cell)) :=
  match rows1.head? with
  | none => .error .indexError
  | some row0 =>
    if row0.length < c + 1 then
      if strict then .error .indexError
      else setitemAssign (set_column_count rows1 c) r c v
    else setitemAssign rows1 r c v

/-- The `CSV.__setitem__` accessor for a `(row, col)` key: an out-of-bounds
row raises `IndexError` in strict mode and otherwise grows the grid through
`_set_row_count` (whose growth can still leave the final indexed assignment
out of bounds, so `IndexError` remains reachable in non-strict mode). -/
def setitem (strict : Bool) (rows : List (List Cell)) (r c : Nat) (v : Cell) :
    Except PyErr (List (List Cell)) :=
  if rows.length < r + 1 then
    if strict then .error .indexError
    else setitemCols strict (set_row_count rows r) r c v
  else setitemCols strict rows r c v

/-- The `CSV.get_col` accessor: one `__getitem__` per row index. -/
def get_col (strict : Bool) (rows : List (List Cell)) (c : Nat) :
    Except PyErr (List Cell) :=
  pyListMapM (fun r => getitem strict rows r c) (List.range rows.length)

/-- One iteration of the second normalization loop of `CSV.__init__`
(`for i in range(self.col_count)`): read column `i` and, when it is shorter
than the widest row, run `self[i,x] = None` for
`x in range(len(column), max_col_size - len(column))`. -/
def initColStep (strict : Bool) (maxColSize : Nat) (rows : List (List Cell)) (i : Nat) :
    Except PyErr (List (List Cell)) :=
  match get_col strict rows i with
  | .error e => .error e
  | .ok column =>
    if column.length < maxColSize then
      pyFoldM (fun rows x => setitem strict rows i x none) rows
        (List.range' column.length ((maxColSize - column.length) - column.length))
    else .ok rows

/-- First normalization block of `CSV.__init__`: when `min_row_size` is
smaller than `max_row_size`, every row whose length differs from
`max_row_size` is extended by `max_row_size - min_row_size` copies of
`None`. -/
def padRows (rows0 : List (List Cell)) (maxRowSize minRowSize : Nat) : List (List Cell) :=
  if minRowSize < maxRowSize then
    rows0.map (fun row =>
      if row.length = maxRowSize then row
      else row ++ List.replicate (maxRowSize - minRowSize) (none : Cell))
  else rows0

/-- Second normalization block of `CSV.__init__`: when the row lengths still
disagree, loop over `range(self.col_count)` (recomputed as the length of the
lexicographically greatest row) patching cells through `__setitem__`. -/
def csvInitCols (strict : Bool) (rows1 : List (List Cell)) : Except PyErr (List (List Cell)) :=
  match pyMaxNat (rows1.map List.length) with
  | .error e => .error e
  | .ok maxColSize =>
    match pyMinNat (rows1.map List.length) with
    | .error e => .error e
    | .ok minColSize =>
      if minColSize < maxColSize then
        match pyMax rows1 with
        | .error e => .error e
        | .ok mx2 => pyFoldM (initColStep strict maxColSize) rows1 (List.range mx2.length)
      else .ok rows1

/-- Row normalization of `CSV.__init__`.  `max_row_size` and `min_row_size`
are the lengths of the lexicographically greatest and least rows (the source
applies `len` to `max(rows)`/`min(rows)`, not `max` to the lengths), then
the two normalization blocks run in order. -/
def csvInit (strict : Bool) (rows0 : List (List Cell)) : Except PyErr (List (List Cell)) :=
  match pyMax rows0 with
  | .error e => .error e
  | .ok mx =>
    match pyMin rows0 with
    | .error e => .error e
    | .ok mn => csvInitCols strict (padRows rows0 mx.length mn.length)

/-- The full `CSV.from_str`: tokenize, build rows, unescape each cell, then
run the constructor's normalization on the resulting grid of strings. -/
def from_str (strict : Bool) (cfg : Cfg) (data : List Char) :
    Except PyErr (List (List Cell)) :=
  match buildRowsGo cfg [] [] (tokenize cfg data) with
  | .error e => .error e
  | .ok rawRows =>
    csvInit strict
      (rawRows.map (fun row => row.map (fun cell => (some (unescapeCell cfg cell) : Cell))))

/-- Coercion applied to each cell before serialization: `None` becomes the
`blank` argument, text is kept. -/
def cellText (blank : List Char) : Cell → List Char
  | none => blank
  | some s => s

/-- Whether the `str_from_cell` character-class search
(`[{e}{c}{r}]`) finds any match in the cell text. -/
def needsEscape (cfg : Cfg) (cell : List Char) : Bool :=
  cell.any (fun ch => ch = cfg.escape ∨ ch = cfg.cellend ∨ ch = cfg.rowend)

/-- The `str_from_cell` serializer for one cell: when the search finds a
separator or escape character the text is wrapped in escape characters; the
subsequent `cell_out.replace(matched_str, escape + matched_str)` calls
discard their results in the source, so no doubling occurs. -/
def str_from_cell (cfg : Cfg) (cell : List Char) : List Char :=
  if needsEscape cfg cell then cfg.escape :: cell ++ [cfg.escape]
  else cell

/-- The `CSV.to_str` serializer.  Because the source aliases
`row_out = row`, each stored cell is overwritten in place by its escaped text
(`some` of `str_from_cell` of the coerced cell); the returned pair is the
output text and the grid rows as they stand after the call. -/
def to_str (cfg : Cfg) (blank : List Char) (rows : List (List Cell)) :
    List Char × List (List Cell) :=
  let newRows := rows.map (fun row => row.map (fun cell => str_from_cell cfg (cellText blank cell)))
  (List.intercalate [cfg.rowend] (newRows.map (List.intercalate [cfg.cellend])),
   newRows.map (fun row => row.map (fun s => (some s : Cell))))

/-! Helper lemmas. -/

/-- Absence of the "match of unknown type" failure in a result. -/
def notMalformed {α : Type} : Except PyErr α → Prop
  | .error e => e ≠ PyErr.malformed
  | .ok _ => True

theorem notMalformed_ok {α : Type} (a : α) : notMalformed (Except.ok a) := trivial

theorem notMalformed_error {α : Type} {β : Type} {e : PyErr}
    (h : notMalformed (Except.error e : Except PyErr α)) :
    notMalformed (Except.error e : Except PyErr β) := h

theorem notMalformed_typeError {α : Type} :
    notMalformed (Except.error PyErr.typeError : Except PyErr α) :=
  fun h => PyErr.noConfusion h

theorem notMalformed_valueError {α : Type} :
    notMalformed (Except.error PyErr.valueError : Except PyErr α) :=
  fun h => PyErr.noConfusion h

theorem notMalformed_indexError {α : Type} :
    notMalformed (Except.error PyErr.indexError : Except PyErr α) :=
  fun h => PyErr.noConfusion h

theorem pyFoldM_notMalformed {σ α : Type} (f : σ → α → Except PyErr σ)
    (hf : ∀ s x, notMalformed (f s x)) :
    ∀ (l : List α) (s : σ), notMalformed (pyFoldM f s l) := by
  intro l
  induction l with
  | nil => intro s; exact notMalformed_ok s
  | cons x xs ih =>
    intro s
    show notMalformed (match f s x with
      | .ok s' => pyFoldM f s' xs
      | .error e => .error e)
    cases h : f s x with
    | ok s' => exact ih s'
    | error e =>
      have hx := hf s x
      rw [h] at hx
      exact hx

theorem pyListMapM_notMalformed {α β : Type} (f : α → Except PyErr β)
    (hf : ∀ x, notMalformed (f x)) :
    ∀ l : List α, notMalformed (pyListMapM f l) := by
  intro l
  induction l with
  | nil => exact notMalformed_ok []
  | cons x xs ih =>
    show notMalformed (match f x with
      | .error e => .error e
      | .ok y =>
        match pyListMapM f xs with
        | .error e => .error e
        | .ok ys => .ok (y :: ys))
    cases h : f x with
    | error e =>
      have hx := hf x
      rw [h] at hx
      show notMalformed (Except.error e : Except PyErr (List β))
      exact notMalformed_error hx
    | ok y =>
      cases h2 : pyListMapM f xs with
      | error e =>
        rw [h2] at ih
        show notMalformed (Except.error e : Except PyErr (List β))
        exact ih
      | ok ys => exact notMalformed_ok _

theorem getitem_notMalformed (strict : Bool) (rows : List (List Cell)) (r c : Nat) :
    notMalformed (getitem strict rows r c) := by
  unfold getitem
  repeat' split
  all_goals first
    | exact notMalformed_indexError
    | exact notMalformed_ok _

theorem setitemAssign_notMalformed (rows2 : List (List Cell)) (r c : Nat) (v : Cell) :
    notMalformed (setitemAssign rows2 r c v) := by
  unfold setitemAssign
  split
  · exact notMalformed_indexError
  · split
    · exact notMalformed_indexError
    · exact notMalformed_ok _

theorem setitemCols_notMalformed (strict : Bool) (rows1 : List (List Cell)) (r c : Nat)
    (v : Cell) : notMalformed (setitemCols strict rows1 r c v) := by
  unfold setitemCols
  split
  · exact notMalformed_indexError
  · split
    · split
      · exact notMalformed_indexError
      · exact setitemAssign_notMalformed _ _ _ _
    · exact setitemAssign_notMalformed _ _ _ _

theorem setitem_notMalformed (strict : Bool) (rows : List (List Cell)) (r c : Nat)
    (v : Cell) : notMalformed (setitem strict rows r c v) := by
  unfold setitem
  split
  · split
    · exact notMalformed_indexError
    · exact setitemCols_notMalformed _ _ _ _ _
  · exact setitemCols_notMalformed _ _ _ _ _

theorem get_col_notMalformed (strict : Bool) (rows : List (List Cell)) (c : Nat) :
    notMalformed (get_col strict rows c) :=
  pyListMapM_notMalformed _ (fun r => getitem_notMalformed strict rows r c) _

theorem pyMax_notMalformed (rows : List (List Cell)) : notMalformed (pyMax rows) := by
  cases rows with
  | nil => exact notMalformed_valueError
  | cons r rs =>
    exact pyFoldM_notMalformed _
      (fun cur x => by
        show notMalformed (match rowGt x cur with
          | some true => Except.ok x
          | some false => Except.ok cur
          | none => Except.error PyErr.typeError)
        cases h : rowGt x cur with
        | none => exact notMalformed_typeError
        | some b => cases b <;> exact notMalformed_ok _) rs r

theorem pyMin_notMalformed (rows : List (List Cell)) : notMalformed (pyMin rows) := by
  cases rows with
  | nil => exact notMalformed_valueError
  | cons r rs =>
    exact pyFoldM_notMalformed _
      (fun cur x => by
        show notMalformed (match rowLt x cur with
          | some true => Except.ok x
          | some false => Except.ok cur
          | none => Except.error PyErr.typeError)
        cases h : rowLt x cur with
        | none => exact notMalformed_typeError
        | some b => cases b <;> exact notMalformed_ok _) rs r

theorem pyMaxNat_notMalformed (l : List Nat) : notMalformed (pyMaxNat l) := by
  cases l with
  | nil => exact notMalformed_valueError
  | cons n ns => exact notMalformed_ok _

theorem pyMinNat_notMalformed (l : List Nat) : notMalformed (pyMinNat l) := by
  cases l with
  | nil => exact notMalformed_valueError
  | cons n ns => exact notMalformed_ok _

theorem initColStep_notMalformed (strict : Bool) (maxColSize : Nat)
    (rows : List (List Cell)) (i : Nat) :
    notMalformed (initColStep strict maxColSize rows i) := by
  unfold initColStep
  split
  · rename_i e heq
    have hx := get_col_notMalformed strict rows i
    rw [heq] at hx
    exact notMalformed_error hx
  · split
    · exact pyFoldM_notMalformed _ (fun rows x => setitem_notMalformed strict rows i x none) _ _
    · exact notMalformed_ok _

theorem csvInitCols_notMalformed (strict : Bool) (rows1 : List (List Cell)) :
    notMalformed (csvInitCols strict rows1) := by
  unfold csvInitCols
  split
  · rename_i e heq
    have hx := pyMaxNat_notMalformed (rows1.map List.length)
    rw [heq] at hx
    exact notMalformed_error hx
  · rename_i maxColSize heq
    split
    · rename_i e heq2
      have hx := pyMinNat_notMalformed (rows1.map List.length)
      rw [heq2] at hx
      exact notMalformed_error hx
    · rename_i minColSize heq2
      split
      · split
        · rename_i e heq3
          have hx := pyMax_notMalformed rows1
          rw [heq3] at hx
          exact notMalformed_error hx
        · exact pyFoldM_notMalformed _
            (fun rows i => initColStep_notMalformed strict maxColSize rows i) _ _
      · exact notMalformed_ok _

theorem csvInit_notMalformed (strict : Bool) (rows0 : List (List Cell)) :
    notMalformed (csvInit strict rows0) := by
  unfold csvInit
  split
  · rename_i e heq
    have hx := pyMax_notMalformed rows0
    rw [heq] at hx
    exact notMalformed_error hx
  · split
    · rename_i e heq2
      have hx := pyMin_notMalformed rows0
      rw [heq2] at hx
      exact notMalformed_error hx
    · exact csvInitCols_notMalformed _ _

theorem buildRowsGo_cons (cfg : Cfg) (cur : List (List Char))
    (rows : List (List (List Char))) (t : Tok) (ts : List Tok) :
    buildRowsGo cfg cur rows (t :: ts) =
      if t.term = some cfg.cellend then buildRowsGo cfg (cur ++ [t.cell]) rows ts
      else if t.term = some cfg.rowend then buildRowsGo cfg [] (rows ++ [cur ++ [t.cell]]) ts
      else .ok (rows ++ [cur ++ [t.cell]]) := by
  simp [buildRowsGo]

theorem buildRowsGo_ok (cfg : Cfg) :
    ∀ (toks : List Tok) (cur : List (List Char)) (rows : List (List (List Char))),
    ∃ r, buildRowsGo cfg cur rows toks = .ok r := by
  intro toks
  induction toks with
  | nil => intro cur rows; exact ⟨rows, rfl⟩
  | cons t ts ih =>
    intro cur rows
    rw [buildRowsGo_cons]
    split
    · exact ih _ _
    · split
      · exact ih _ _
      · exact ⟨_, rfl⟩

theorem buildRowsGo_step_cell (cfg : Cfg) (cur : List (List Char))
    (rows : List (List (List Char))) (u : Tok) (ts : List Tok)
    (h : u.term = some cfg.cellend) :
    buildRowsGo cfg cur rows (u :: ts) = buildRowsGo cfg (cur ++ [u.cell]) rows ts := by
  rw [buildRowsGo_cons, if_pos h]

theorem buildRowsGo_step_row (cfg : Cfg) (cur : List (List Char))
    (rows : List (List (List Char))) (u : Tok) (ts : List Tok)
    (h1 : ¬ u.term = some cfg.cellend) (h2 : u.term = some cfg.rowend) :
    buildRowsGo cfg cur rows (u :: ts) = buildRowsGo cfg [] (rows ++ [cur ++ [u.cell]]) ts := by
  rw [buildRowsGo_cons, if_neg h1, if_pos h2]

theorem buildRowsGo_step_break (cfg : Cfg) (cur : List (List Char))
    (rows : List (List (List Char))) (u : Tok) (ts : List Tok)
    (h1 : ¬ u.term = some cfg.cellend) (h2 : ¬ u.term = some cfg.rowend) :
    buildRowsGo cfg cur rows (u :: ts) = .ok (rows ++ [cur ++ [u.cell]]) := by
  rw [buildRowsGo_cons, if_neg h1, if_neg h2]

theorem buildRowsGo_break (cfg : Cfg) (t : Tok) (post : List Tok)
    (ht1 : ¬ t.term = some cfg.cellend) (ht2 : ¬ t.term = some cfg.rowend) :
    ∀ (pre : List Tok) (cur : List (List Char)) (rows : List (List (List Char))),
    (∀ u ∈ pre, u.term = some cfg.cellend ∨ u.term = some cfg.rowend) →
    buildRowsGo cfg cur rows (pre ++ t :: post) = buildRowsGo cfg cur rows (pre ++ [t]) ∧
    ∃ rs c, buildRowsGo cfg cur rows (pre ++ t :: post) = .ok (rs ++ [c ++ [t.cell]]) := by
  intro pre
  induction pre with
  | nil =>
    intro cur rows _
    have hL : buildRowsGo cfg cur rows (t :: post) = .ok (rows ++ [cur ++ [t.cell]]) :=
      buildRowsGo_step_break cfg cur rows t post ht1 ht2
    have hR : buildRowsGo cfg cur rows [t] = .ok (rows ++ [cur ++ [t.cell]]) :=
      buildRowsGo_step_break cfg cur rows t [] ht1 ht2
    refine ⟨?_, rows, cur, ?_⟩
    · rw [List.nil_append, List.nil_append, hL, hR]
    · rw [List.nil_append, hL]
  | cons u pre ih =>
    intro cur rows hpre
    have hu := hpre u (List.mem_cons_self u pre)
    have hpre' : ∀ v ∈ pre, v.term = some cfg.cellend ∨ v.term = some cfg.rowend :=
      fun v hv => hpre v (List.mem_cons_of_mem u hv)
    by_cases hcell : u.term = some cfg.cellend
    · rw [List.cons_append, List.cons_append,
        buildRowsGo_step_cell cfg cur rows u (pre ++ t :: post) hcell,
        buildRowsGo_step_cell cfg cur rows u (pre ++ [t]) hcell]
      exact ih _ _ hpre'
    · have hrow : u.term = some cfg.rowend := hu.resolve_left hcell
      rw [List.cons_append, List.cons_append,
        buildRowsGo_step_row cfg cur rows u (pre ++ t :: post) hcell hrow,
        buildRowsGo_step_row cfg cur rows u (pre ++ [t]) hcell hrow]
      exact ih _ _ hpre'

theorem needsEscape_iff (cfg : Cfg) (cell : List Char) :
    needsEscape cfg cell = true ↔
      ∃ ch ∈ cell, ch = cfg.escape ∨ ch = cfg.cellend ∨ ch = cfg.rowend := by
  simp [needsEscape, List.any_eq_true]

/-! Claim theorems. -/

/-- C1.  The round-trip property fails on the code: serializing the grid
`[["a,b", "c,d"]]` with the default configuration and blank `""` yields
`"a,b","c,d"` (no doubling of the embedded separators), and parsing that
text back produces the single-cell grid `[["a,b\",\"c,d"]]` — the greedy
quoted-span match swallows both cells — which differs from the original
grid (whose cells are text, so absent-normalization is the identity). -/
theorem C1_round_trip_fails :
    from_str false defaultCfg
        (to_str defaultCfg [] [[some ("a,b".toList), some ("c,d".toList)]]).1
      = .ok [[some ("a,b\",\"c,d".toList)]] ∧
    decide ([[some ("a,b\",\"c,d".toList)]]
      = [[some ("a,b".toList), some ("c,d".toList)]]) = false :=
  ⟨rfl, rfl⟩

/-- C2.  Serialization is not read-only: `CSV.to_str` aliases `row_out =
row` and overwrites each stored cell with its escaped text form, so after
serializing the grid `[["a,b"]]` the stored cell equals `"\"a,b\""` (the
escaped form), not the original `"a,b"`. -/
theorem C2_to_str_mutates_grid :
    (to_str defaultCfg [] [[some ("a,b".toList)]]).2 = [[some ("\"a,b\"".toList)]] ∧
    decide ([[some ("\"a,b\"".toList)]] = [[(some ("a,b".toList) : Cell)]]) = false :=
  ⟨rfl, rfl⟩

/-- C3.  The unescaping pass does not replace doubled escapes: on the fully
wrapped cell `"a""b"` it only strips the outer pair, returning `a""b`
instead of the claimed `a"b` (the inner `cell.replace` results are
discarded); likewise a cell with an internal escaped run, such as `a","b`,
is returned unchanged instead of having the run collapsed. -/
theorem C3_unescape_pass_is_noop :
    unescapeCell defaultCfg ("\"a\"\"b\"".toList) = "a\"\"b".toList ∧
    decide (("a\"\"b".toList : List Char) = "a\"b".toList) = false ∧
    unescapeCell defaultCfg ("a\",\"b".toList) = "a\",\"b".toList :=
  ⟨rfl, rfl, rfl⟩

/-- C4.  The serializer wraps but does not double: for the cell text `a"b`
(which contains the escape character) `str_from_cell` returns `"a"b"`
rather than the claimed `"a""b"` — the `cell_out.replace` results are
discarded, so no internal occurrence is prefixed with an extra escape. -/
theorem C4_serializer_does_not_double :
    str_from_cell defaultCfg ("a\"b".toList) = "\"a\"b\"".toList ∧
    decide (("\"a\"b\"".toList : List Char) = "\"a\"\"b\"".toList) = false :=
  ⟨rfl, rfl⟩

/-- C5.  Parsing stops at the first token whose terminator is end-of-input:
if the token stream of an input decomposes as `pre ++ t :: post` where every
token of `pre` is terminated by a cell or row separator and `t` is not, then
the row-building loop ignores `post` entirely and `t.cell` is the final cell
of the final row of the resulting grid. -/
theorem C5_stops_at_end_of_input (cfg : Cfg) (s : List Char) (pre post : List Tok) (t : Tok)
    (hdec : tokenize cfg s = pre ++ t :: post)
    (hpre : ∀ u ∈ pre, u.term = some cfg.cellend ∨ u.term = some cfg.rowend)
    (ht1 : ¬ t.term = some cfg.cellend) (ht2 : ¬ t.term = some cfg.rowend) :
    buildRowsGo cfg [] [] (tokenize cfg s) = buildRowsGo cfg [] [] (pre ++ [t]) ∧
    ∃ rs c, buildRowsGo cfg [] [] (tokenize cfg s) = .ok (rs ++ [c ++ [t.cell]]) := by
  rw [hdec]
  exact buildRowsGo_break cfg t post ht1 ht2 pre [] [] hpre

/-- Witness for C5 at the concrete input `"a,b"`, whose token stream is
`[(a, ','), (b, end), ([], end)]`: the trailing empty token is discarded and
`b` ends the final row. -/
theorem C5_stops_at_end_of_input_witness :
    (tokenize defaultCfg ("a,b".toList) =
        [Tok.mk ['a'] (some ',')] ++ Tok.mk ['b'] none :: [Tok.mk [] none]) ∧
    (∀ u ∈ [Tok.mk ['a'] (some ',')],
        u.term = some defaultCfg.cellend ∨ u.term = some defaultCfg.rowend) ∧
    (¬ (Tok.mk ['b'] none).term = some defaultCfg.cellend) ∧
    (¬ (Tok.mk ['b'] none).term = some defaultCfg.rowend) ∧
    (buildRowsGo defaultCfg [] [] (tokenize defaultCfg ("a,b".toList)) =
        buildRowsGo defaultCfg [] [] ([Tok.mk ['a'] (some ',')] ++ [Tok.mk ['b'] none]) ∧
      ∃ rs c, buildRowsGo defaultCfg [] [] (tokenize defaultCfg ("a,b".toList)) =
        .ok (rs ++ [c ++ [(Tok.mk ['b'] none).cell]])) :=
  ⟨rfl, by decide, by decide, by decide,
    C5_stops_at_end_of_input defaultCfg ("a,b".toList) [Tok.mk ['a'] (some ',')]
      [Tok.mk [] none] (Tok.mk ['b'] none) rfl (by decide) (by decide) (by decide)⟩

/-- C6.  Escaping necessity: for every configuration and cell text, the
serialized cell is wrapped in escape characters (has the shape
`escape :: mid ++ [escape]`) iff the text contains the cell separator, the
row separator, or the escape character. -/
theorem C6_escaping_necessity (cfg : Cfg) (cell : List Char) :
    (∃ mid, str_from_cell cfg cell = cfg.escape :: mid ++ [cfg.escape]) ↔
      ∃ ch ∈ cell, ch = cfg.escape ∨ ch = cfg.cellend ∨ ch = cfg.rowend := by
  constructor
  · rintro ⟨mid, hmid⟩
    by_cases h : needsEscape cfg cell = true
    · exact (needsEscape_iff cfg cell).mp h
    · rw [str_from_cell, if_neg h] at hmid
      exact ⟨cfg.escape, by rw [hmid]; exact List.mem_cons_self _ _, Or.inl rfl⟩
  · intro h
    have hb : needsEscape cfg cell = true := (needsEscape_iff cfg cell).mpr h
    exact ⟨cell, by rw [str_from_cell, if_pos hb]⟩

/-- C7.  Constructor padding fails: the row list `[["b"], ["a", "a"]]` is
accepted by `CSV.__init__` and returned unchanged — `len(max(rows))` is the
length of the lexicographically greatest row (`["b"]`, length 1), so no
padding is applied and the grid keeps rows of lengths 1 and 2. -/
theorem C7_constructor_padding_fails :
    csvInit false [[some ("b".toList)], [some ("a".toList), some ("a".toList)]]
      = .ok [[some ("b".toList)], [some ("a".toList), some ("a".toList)]] ∧
    ([[some ("b".toList)], [some ("a".toList), some ("a".toList)]].map List.length) = [1, 2] :=
  ⟨rfl, rfl⟩

/-- C8.  Bounds policy: for every grid, reading at `(row_count, 0)` returns
`None` when strict mode is off and raises `IndexError` (the spec's
`BoundsError`) when strict mode is on. -/
theorem C8_bounds_policy (rows : List (List Cell)) :
    getitem false rows rows.length 0 = .ok (none : Cell) ∧
    getitem true rows rows.length 0 = .error PyErr.indexError := by
  refine ⟨?_, ?_⟩ <;> (unfold getitem; rw [if_pos (Nat.lt_succ_self _)]) <;> rfl

/-- C9.  Scenario 2: parsing `a,"b,c"\nd,e` with the default configuration
yields the grid `[["a", "b,c"], ["d", "e"]]` — the separator inside the
quoted span survives tokenizing and the unescape pass strips the outer
escape pair. -/
theorem C9_scenario_two :
    from_str false defaultCfg ("a,\"b,c\"\nd,e".toList) =
      .ok [[some ("a".toList), some ("b,c".toList)],
           [some ("d".toList), some ("e".toList)]] := rfl

/-- C10 counterexample.  Parsing does not always return a grid: on the input
`a\nb,b,b\nc,c,c,c,c` the constructor's second normalization loop calls
`self[3,3] = None`, `_set_row_count(3)` appends nothing (the grid already
has 3 rows), and the indexed assignment `self._rows[3][3]` raises
`IndexError`, which propagates out of `CSV.from_str`. -/
theorem C10_parse_can_raise :
    from_str false defaultCfg ("a\nb,b,b\nc,c,c,c,c".toList) = .error PyErr.indexError := rfl

/-- C10 amended.  The malformed-input branch itself is unreachable: for
every strictness flag, configuration and input, `CSV.from_str` never raises
the "match of unknown type" `Exception`, because the guard compares
`m.group('cell')` with `m.groupdict()['cell']`, two reads of the same
group. -/
theorem C10_no_malformed_error (strict : Bool) (cfg : Cfg) (data : List Char) :
    notMalformed (from_str strict cfg data) := by
  unfold from_str
  obtain ⟨r, hr⟩ := buildRowsGo_ok cfg (tokenize cfg data) [] []
  rw [hr]
  exact csvInit_notMalformed _ _
